import Mathlib

/-!
Verification of the core ingestion-dedup-transform pipeline of the
workouts-to-ical repository: the record validator (`isWorkoutData` in
WorkoutData.ts), the event classifier/formatter (`CalendarWorkoutEvent`),
and the merge coordinator / durable store (`DataFile.mergeData`,
`DataFile.getCalendarWorkoutEvents`).

The JavaScript/TypeScript source is shallowly embedded: JSON-like values
become the inductive type `Json`; JavaScript numbers are modelled as exact
fractions (`JsNum`, an integer numerator with a positive integer
denominator, no normalisation) so that every definition is executable by
the kernel; the external libraries used by the source (ajv, dayjs) are
modelled by executable Lean functions that follow their documented
behaviour on the inputs the program feeds them.
-/

namespace WorkoutsToIcal

/-- Model of a JavaScript number as an exact fraction.  Every construction
in this file keeps `den` positive; operations are performed without
normalisation so that they reduce inside the kernel. -/
structure JsNum where
  num : Int
  den : Int
deriving DecidableEq, Repr

/-- Embed an integer as a `JsNum`. -/
def jn (n : Int) : JsNum := ⟨n, 1⟩

/-- Multiplication of modelled JavaScript numbers. -/
def jsMul (a b : JsNum) : JsNum := ⟨a.num * b.num, a.den * b.den⟩

/-- Reciprocal of a modelled JavaScript number, keeping the denominator
nonnegative.  (Reciprocal of zero is left as a fraction with denominator
zero; the program never divides by zero on the paths verified here.) -/
def jsInv (b : JsNum) : JsNum :=
  if b.num < 0 then ⟨-b.den, -b.num⟩ else ⟨b.den, b.num⟩

/-- Division of modelled JavaScript numbers. -/
def jsDiv (a b : JsNum) : JsNum := jsMul a (jsInv b)

/-- Strict comparison of modelled JavaScript numbers (valid when both
denominators are positive, which all constructions here maintain). -/
def jsLt (a b : JsNum) : Bool := decide (a.num * b.den < b.num * a.den)

mutual

/-- JSON-like structured values, the shape of data received from the
Health Auto Export app and stored in the database. -/
inductive Json where
  | null : Json
  | bool (b : Bool) : Json
  | num (q : JsNum) : Json
  | str (s : String) : Json
  | obj (fields : JsonFields) : Json
deriving DecidableEq, Repr

/-- The field list of a JSON object. -/
inductive JsonFields where
  | nil : JsonFields
  | cons (key : String) (val : Json) (rest : JsonFields) : JsonFields
deriving DecidableEq, Repr

end

/-- Build a JSON object field list from a list of key/value pairs. -/
def Json.mkObj : List (String × Json) → JsonFields
  | [] => .nil
  | (k, v) :: rest => .cons k v (mkObj rest)

/-- Lookup in a JSON object field list. -/
def JsonFields.find : JsonFields → String → Option Json
  | .nil, _ => none
  | .cons k' v rest, k => if k' = k then some v else rest.find k

/-- Field lookup on a JSON object (JavaScript property access); `none` on
non-objects and absent keys. -/
def Json.getField : Json → String → Option Json
  | .obj fields, k => fields.find k
  | _, _ => none

/-- The string stored under key `k`, with `""` as the (unreachable after
validation) default. -/
def jStrD (j : Json) (k : String) : String :=
  match j.getField k with
  | some (.str s) => s
  | _ => ""

/-- The `qty` number of quantity group `g`, with `0` as the (unreachable
after validation) default. -/
def jQty (j : Json) (g : String) : JsNum :=
  match j.getField g with
  | some o =>
    match o.getField "qty" with
    | some (.num q) => q
    | _ => jn 0
  | none => jn 0

/-- JavaScript truthiness of an optional JSON value (`none` models an
absent property, i.e. `undefined`). -/
def jsTruthy : Option Json → Bool
  | none => false
  | some .null => false
  | some (.bool b) => b
  | some (.num q) => !(q.num = 0)
  | some (.str s) => !(s = "")
  | some (.obj _) => true

/-! ### Model of dayjs timestamp parsing

The source validates `start`/`end` with `dayjs(value).isValid()` and later
computes `dayjs(end).diff(start)` in milliseconds.  We model the parser on
the timestamp shapes the Health Auto Export app produces (and the ones the
repository's tests use): `YYYY-MM-DD`, optionally followed by a `T` or
space separator and `HH:mm:ss`, optionally followed by a UTC designator
`Z` or a numeric offset `±HH:mm` / `±HHmm`, optionally preceded by a
space.  Timestamps without an offset are interpreted at a fixed (UTC)
local zone. -/

/-- Value of a decimal digit character. -/
def digitVal (c : Char) : Option Nat :=
  if '0' ≤ c ∧ c ≤ '9' then some (c.toNat - 48) else none

/-- Read two decimal digits. -/
def read2 : List Char → Option (Nat × List Char)
  | a :: b :: rest =>
    match digitVal a, digitVal b with
    | some x, some y => some (10 * x + y, rest)
    | _, _ => none
  | _ => none

/-- Read four decimal digits. -/
def read4 : List Char → Option (Nat × List Char)
  | a :: b :: c :: d :: rest =>
    match digitVal a, digitVal b, digitVal c, digitVal d with
    | some x, some y, some z, some w => some (1000 * x + 100 * y + 10 * z + w, rest)
    | _, _, _, _ => none
  | _ => none

/-- Days between 1970-01-01 and the civil date `y-m-d` (standard civil
calendar arithmetic; all intermediate divisions act on nonnegative
operands for the four-digit years the parser accepts). -/
def daysFromCivil (y m d : Int) : Int :=
  let y' := y - (if m ≤ 2 then 1 else 0)
  let era := (if 0 ≤ y' then y' else y' - 399) / 400
  let yoe := y' - era * 400
  let doy := (153 * (m + (if 2 < m then -3 else 9)) + 2) / 5 + d - 1
  let doe := yoe * 365 + yoe / 4 - yoe / 100 + doy
  era * 146097 + doe - 719468

/-- Read a numeric UTC offset `±HH:mm` or `±HHmm`, returning minutes. -/
def readOffset : List Char → Option Int
  | sign :: rest =>
    if sign = '+' ∨ sign = '-' then
      match read2 rest with
      | some (h, rest1) =>
        let rest2 := match rest1 with
          | ':' :: r => r
          | r => r
        match read2 rest2 with
        | some (mi, []) =>
          let mag : Int := h * 60 + mi
          some (if sign = '-' then -mag else mag)
        | _ => none
      | none => none
    else none
  | [] => none

/-- Read the tail after the seconds field: nothing, `Z`, or a numeric
offset optionally preceded by one space.  Returns the offset in minutes. -/
def readZoneTail : List Char → Option Int
  | [] => some 0
  | ['Z'] => some 0
  | ' ' :: rest => readOffset rest
  | rest => readOffset rest

/-- Model of `dayjs(s)` for valid inputs: epoch milliseconds, or `none`
when the string is not a recognised timestamp. -/
def parseTimestampMs (s : String) : Option Int :=
  match read4 s.data with
  | some (y, '-' :: r1) =>
    match read2 r1 with
    | some (mo, '-' :: r2) =>
      match read2 r2 with
      | some (d, r3) =>
        if 1 ≤ mo ∧ mo ≤ 12 ∧ 1 ≤ d ∧ d ≤ 31 then
          match r3 with
          | [] => some (daysFromCivil y mo d * 86400000)
          | sep :: r4 =>
            if sep = 'T' ∨ sep = ' ' then
              match read2 r4 with
              | some (h, ':' :: r5) =>
                match read2 r5 with
                | some (mi, ':' :: r6) =>
                  match read2 r6 with
                  | some (sec, r7) =>
                    if h ≤ 23 ∧ mi ≤ 59 ∧ sec ≤ 59 then
                      match readZoneTail r7 with
                      | some off =>
                        some (daysFromCivil y mo d * 86400000
                          + (h * 3600 + mi * 60 + sec) * 1000 - off * 60000)
                      | none => none
                    else none
                  | _ => none
                | _ => none
              | _ => none
            else none
        else none
      | _ => none
    | _ => none
  | _ => none

/-- Model of `dayjs(s).isValid()`, the check behind the ajv
`workout-timestamp` format. -/
def dayjsIsValid (s : String) : Bool := (parseTimestampMs s).isSome

/-- Epoch milliseconds of a timestamp string, defaulting to 0 (the default
is unreachable for strings that passed validation). -/
def parseMsD (s : String) : Int := (parseTimestampMs s).getD 0

/-! ### Model of the ajv validator (`workoutDataSchema` / `isWorkoutData`)

The schema requires an object with: `name` a string; `start` and `end`
strings in the `workout-timestamp` format; optional `isIndoor` of type
boolean with `nullable: true` (ajv's OpenAPI `nullable` keyword also
admits `null`); and six required quantity groups, each an object with a
required numeric `qty`.  `additionalProperties: true` tolerates unknown
fields. -/

/-- One quantity group: must be an object with a numeric `qty` field. -/
def qtyGroupOk (j : Json) : Bool :=
  match j with
  | .obj _ =>
    match j.getField "qty" with
    | some (.num _) => true
    | _ => false
  | _ => false

/-- Required string field carrying the `workout-timestamp` format. -/
def tsFieldOk (j : Json) (k : String) : Bool :=
  match j.getField k with
  | some (.str s) => dayjsIsValid s
  | _ => false

/-- Optional `isIndoor` field: absent, boolean, or null (`nullable: true`). -/
def indoorFieldOk (j : Json) : Bool :=
  match j.getField "isIndoor" with
  | none => true
  | some (.bool _) => true
  | some .null => true
  | _ => false

/-- Model of the compiled ajv validator `isWorkoutData`. -/
def isWorkoutData (j : Json) : Bool :=
  match j with
  | .obj _ =>
    (match j.getField "name" with
     | some (.str _) => true
     | _ => false)
    && tsFieldOk j "start"
    && tsFieldOk j "end"
    && indoorFieldOk j
    && qtyGroupOk ((j.getField "activeEnergy").getD .null)
    && qtyGroupOk ((j.getField "stepCadence").getD .null)
    && qtyGroupOk ((j.getField "distance").getD .null)
    && qtyGroupOk ((j.getField "speed").getD .null)
    && qtyGroupOk ((j.getField "avgHeartRate").getD .null)
    && qtyGroupOk ((j.getField "maxHeartRate").getD .null)
  | _ => false

/-! ### Model of dayjs durations and `Number.prototype.toFixed`

`dayjs.duration(ms)` decomposes a millisecond count into calendar-free
components by successively truncating toward zero at the fixed unit sizes
365-day years, 30-day months, days, hours, minutes, seconds.
`duration.format("HH:mm:ss")` / `"mm:ss"` prints the corresponding
components zero-padded to width two.  `toFixed(f)` takes the sign out
first and then rounds the magnitude to the integer nearest to
`x * 10^f`, half away from zero. -/

/-- Truncated-toward-zero quotient of `x` by the integer `unit`, together
with the JavaScript remainder `x % unit` (sign of the dividend). -/
def jsDivModUnit (x : JsNum) (unit : Int) : Int × JsNum :=
  let c := Int.tdiv x.num (x.den * unit)
  (c, ⟨x.num - c * (x.den * unit), x.den⟩)

/-- The unit components of a dayjs duration. -/
structure DurationParts where
  years : Int
  months : Int
  days : Int
  hours : Int
  minutes : Int
  seconds : Int
deriving DecidableEq, Repr

/-- Decomposition of a millisecond count into dayjs duration components. -/
def durParts (ms : JsNum) : DurationParts :=
  let p1 := jsDivModUnit ms 31536000000
  let p2 := jsDivModUnit p1.2 2592000000
  let p3 := jsDivModUnit p2.2 86400000
  let p4 := jsDivModUnit p3.2 3600000
  let p5 := jsDivModUnit p4.2 60000
  let p6 := jsDivModUnit p5.2 1000
  ⟨p1.1, p2.1, p3.1, p4.1, p5.1, p6.1⟩

/-- `String(n).padStart(2, "0")`. -/
def pad2 (n : Int) : String :=
  let s := toString n
  if 2 ≤ s.length then s else "0" ++ s

/-- `duration.format("HH:mm:ss")`. -/
def durFormatHms (ms : JsNum) : String :=
  let p := durParts ms
  pad2 p.hours ++ ":" ++ pad2 p.minutes ++ ":" ++ pad2 p.seconds

/-- `duration.format("mm:ss")`. -/
def durFormatMs (ms : JsNum) : String :=
  let p := durParts ms
  pad2 p.minutes ++ ":" ++ pad2 p.seconds

/-- `getDurationString` from CalendarWorkoutEvent.ts: format the duration
as `HH:mm:ss` when its hours component is at least one, else `mm:ss`. -/
def getDurationString (ms : JsNum) : String :=
  if 1 ≤ (durParts ms).hours then durFormatHms ms else durFormatMs ms

/-- A string of `n` zeros. -/
def zeros : Nat → String
  | 0 => ""
  | n + 1 => "0" ++ zeros n

/-- Left-pad a string with zeros to width `w`. -/
def padZerosTo (w : Nat) (s : String) : String := zeros (w - s.length) ++ s

/-- `toFixed` on a nonnegative value: round to the nearest multiple of
`10^(-f)`, half upward, and print with `f` decimals. -/
def jsToFixedNN (f : Nat) (x : JsNum) : String :=
  let n : Int := (x.num * (10 : Int) ^ f * 2 + x.den) / (2 * x.den)
  if f = 0 then toString n
  else
    let a := n.natAbs
    toString (a / 10 ^ f) ++ "." ++ padZerosTo f (toString (a % 10 ^ f))

/-- Model of `x.toFixed(f)`: the sign is extracted first, then the
magnitude is rounded to the nearest `f`-decimal value, half away from
zero. -/
def jsToFixed (f : Nat) (x : JsNum) : String :=
  if x.num < 0 then "-" ++ jsToFixedNN f ⟨-x.num, x.den⟩ else jsToFixedNN f x

/-! ### CalendarWorkoutEvent -/

/-- The own keys of `CalendarWorkoutEvent.allowedWorkoutNames`: workout
names that the program wants to push to a calendar. -/
def allowedWorkoutNames : List String :=
  ["Walking", "Running", "Elliptical", "Hiking",
   "Indoor Walk", "Outdoor Walk", "Outdoor Run", "Indoor Run"]

/-- Properties inherited by every JavaScript object literal from
`Object.prototype`; the `in` operator also reports these as present. -/
def objectPrototypeProps : List String :=
  ["constructor", "hasOwnProperty", "isPrototypeOf", "propertyIsEnumerable",
   "toLocaleString", "toString", "valueOf", "__proto__",
   "__defineGetter__", "__defineSetter__", "__lookupGetter__", "__lookupSetter__"]

/-- Model of the JavaScript test `aData.name in allowedWorkoutNames`: the
`in` operator walks the prototype chain, so both the eight own keys and
the `Object.prototype` properties answer `true`. -/
def nameInAllowedWorkoutNames (s : String) : Bool :=
  allowedWorkoutNames.contains s || objectPrototypeProps.contains s

/-- `CalendarWorkoutEvent.calcName`: the calendar event title (the switch
of the source, written as an equality cascade). -/
def calcName (j : Json) : String :=
  let isIndoor := jsTruthy (j.getField "isIndoor")
  let nm := jStrD j "name"
  if nm = "Walking" then (if isIndoor then "Cardio - treadmill" else "Cardio - walk")
  else if nm = "Running" then (if isIndoor then "Cardio - treadmill" else "Cardio - run")
  else if nm = "Outdoor Walk" then "Cardio - walk"
  else if nm = "Indoor Walk" then "Cardio - treadmill"
  else if nm = "Outdoor Run" then "Cardio - run"
  else if nm = "Indoor Run" then "Cardio - treadmill"
  else if nm = "Elliptical" then "Cardio - elliptical"
  else if nm = "Hiking" then "Hiking"
  else "DEFAULT"

/-- `CalendarWorkoutEvent.calcBody`: the calendar event body. -/
def calcBody (j : Json) : String :=
  let durMs : JsNum := jn (parseMsD (jStrD j "end") - parseMsD (jStrD j "start"))
  getDurationString durMs ++ "\n"
  ++ jsToFixed 0 (jQty j "activeEnergy") ++ " calories" ++ "\n"
  ++ (if jStrD j "name" = "Elliptical" then
        "\n" ++ "Cadence: " ++ jsToFixed 0 (jQty j "stepCadence") ++ " spm" ++ "\n"
      else
        jsToFixed 2 (jQty j "distance") ++ " miles" ++ "\n" ++ "\n"
        ++ "Pace: "
        ++ getDurationString
             (jsMul (jsMul (jsMul (jsDiv (jn 1) (jQty j "speed")) (jn 60)) (jn 60)) (jn 1000))
        ++ "\n")
  ++ "HR: " ++ jsToFixed 0 (jQty j "avgHeartRate") ++ " - "
  ++ jsToFixed 0 (jQty j "maxHeartRate") ++ " bpm" ++ "\n"

/-- A constructed calendar workout event: title, body, and the raw start
string the event day is later derived from. -/
structure CalendarWorkoutEvent where
  start : String
  name : String
  body : String
deriving DecidableEq, Repr

/-- `CalendarWorkoutEvent.createFromWorkoutData`: `none` when schema
validation fails or the `in` test on the allow-list object rejects the
name; otherwise the constructed event. -/
def createFromWorkoutData (j : Json) : Option CalendarWorkoutEvent :=
  if isWorkoutData j then
    if !nameInAllowedWorkoutNames (jStrD j "name") then none
    else some { start := jStrD j "start", name := calcName j, body := calcBody j }
  else none

/-! ### DataFile: durable store and merge coordinator

A store state is the list of persisted rows in insertion order; each row
holds the workout record verbatim (the model identifies a row with the
JSON value that `JSON.stringify`/`JSON.parse` round-trip through the
`value` column).  The indexed `start` column is `json_extract(value,
'$.start')`.  `mergeData` processes the records of a batch, each one
through: existence check on the start key, then insert plus callback when
new.  `Promise.allSettled` swallows per-record errors, so a failing
record never aborts the rest of the batch; faults are modelled by an
oracle assigning each batch position an optional failure point (the
existence check, the insert, or the statement finalisation between the
insert and the callback). -/

/-- Store state: persisted rows in insertion order. -/
abbrev Store := List Json

/-- The indexed start column of a row, and the key `aWorkout.start` used
for the existence check (`none` models SQL NULL / JS `undefined`,
which never compares equal in `WHERE start = ?`). -/
def startKey (j : Json) : Option String :=
  match j.getField "start" with
  | some (.str s) => some s
  | _ => none

/-- The existence check of `mergeData`: some stored row's extracted start
string is exactly equal to the record's start string. -/
def storeSeen (st : Store) (w : Json) : Bool :=
  match startKey w with
  | none => false
  | some k => st.any (fun r => startKey r == some k)

/-- A failure point while processing one record of a batch: the existence
check (or its statement preparation/finalisation), the insert itself, or
the finalisation that sits between a successful insert and the callback. -/
inductive MergeFault where
  | check : MergeFault
  | ins : MergeFault
  | fin : MergeFault
deriving DecidableEq, Repr

/-- Processing of one record inside `mergeData`: returns the new store
state and whether `aOnNewWorkout` was invoked for this record. -/
def mergeStep (flt : Option MergeFault) (st : Store) (w : Json) : Store × Bool :=
  match flt with
  | some .check => (st, false)
  | _ =>
    if storeSeen st w then (st, false)
    else
      match flt with
      | some .ins => (st, false)
      | some .fin => (st ++ [w], false)
      | _ => (st ++ [w], true)

/-- `DataFile.mergeData`: process every record of the batch (fault on one
record never prevents the others from being attempted); returns the final
store state and, per batch position, whether the new-workout callback was
invoked there. -/
def mergeData (flts : Nat → Option MergeFault) (st : Store) : List Json → Store × List Bool
  | [] => (st, [])
  | w :: ws =>
    let p := mergeStep (flts 0) st w
    let r := mergeData (fun i => flts (i + 1)) p.1 ws
    (r.1, p.2 :: r.2)

/-- The fault-free oracle: every record's store operations succeed. -/
def noFault : Nat → Option MergeFault := fun _ => none

/-- `DataFile.getCalendarWorkoutEvents`: reconstruct every persisted row
and keep the ones `createFromWorkoutData` accepts. -/
def getCalendarWorkoutEvents (st : Store) : List CalendarWorkoutEvent :=
  st.filterMap createFromWorkoutData

/-! ### Claim-side (specification) definitions

These definitions follow the wording of the specification / claims and are
compared against the source-derived definitions above. -/

/-- Modelled from the claim wording of C3: the fixed mapping from
(name, indoor-flag-for-legacy-names) to a calendar title. -/
def specTitle (n : String) (indoor : Bool) : String :=
  if n = "Walking" then (if indoor then "Cardio - treadmill" else "Cardio - walk")
  else if n = "Running" then (if indoor then "Cardio - treadmill" else "Cardio - run")
  else if n = "Indoor Walk" then "Cardio - treadmill"
  else if n = "Outdoor Walk" then "Cardio - walk"
  else if n = "Indoor Run" then "Cardio - treadmill"
  else if n = "Outdoor Run" then "Cardio - run"
  else if n = "Elliptical" then "Cardio - elliptical"
  else "Hiking"

/-- Duration rendering rule as literally claimed by C4: `mm:ss` when the
duration is under one hour, `HH:mm:ss` otherwise. -/
def claimDurationString (ms : JsNum) : String :=
  if jsLt ms (jn 3600000) then durFormatMs ms else durFormatHms ms

/-- Duration rendering rule as amended: `mm:ss` when the hours component
of the dayjs duration decomposition (after whole 365-day years, 30-day
months and days are truncated away) is under one, `HH:mm:ss` otherwise.
For durations under 24 hours this coincides with the under-one-hour
rule. -/
def amendedDurationString (ms : JsNum) : String :=
  if (durParts ms).hours < 1 then durFormatMs ms else durFormatHms ms

/-- The pace claimed by C4, `(1 / speed) * 60` minutes per mile, expressed
in milliseconds for rendering. -/
def specPaceMs (speed : JsNum) : JsNum :=
  jsMul (jsMul (jsDiv (jn 1) speed) (jn 60)) (jn 60000)

/-- The event body exactly as claim C4 words it, with the literal
under-one-hour duration rule. -/
def claimBody (j : Json) : String :=
  let durMs : JsNum := jn (parseMsD (jStrD j "end") - parseMsD (jStrD j "start"))
  claimDurationString durMs ++ "\n"
  ++ jsToFixed 0 (jQty j "activeEnergy") ++ " calories" ++ "\n"
  ++ (if jStrD j "name" = "Elliptical" then
        "\n" ++ "Cadence: " ++ jsToFixed 0 (jQty j "stepCadence") ++ " spm" ++ "\n"
      else
        jsToFixed 2 (jQty j "distance") ++ " miles" ++ "\n" ++ "\n"
        ++ "Pace: " ++ claimDurationString (specPaceMs (jQty j "speed")) ++ "\n")
  ++ "HR: " ++ jsToFixed 0 (jQty j "avgHeartRate") ++ " - "
  ++ jsToFixed 0 (jQty j "maxHeartRate") ++ " bpm" ++ "\n"

/-- The event body as claim C4 words it after the amendment of the
duration rule. -/
def amendedBody (j : Json) : String :=
  let durMs : JsNum := jn (parseMsD (jStrD j "end") - parseMsD (jStrD j "start"))
  amendedDurationString durMs ++ "\n"
  ++ jsToFixed 0 (jQty j "activeEnergy") ++ " calories" ++ "\n"
  ++ (if jStrD j "name" = "Elliptical" then
        "\n" ++ "Cadence: " ++ jsToFixed 0 (jQty j "stepCadence") ++ " spm" ++ "\n"
      else
        jsToFixed 2 (jQty j "distance") ++ " miles" ++ "\n" ++ "\n"
        ++ "Pace: " ++ amendedDurationString (specPaceMs (jQty j "speed")) ++ "\n")
  ++ "HR: " ++ jsToFixed 0 (jQty j "avgHeartRate") ++ " - "
  ++ jsToFixed 0 (jQty j "maxHeartRate") ++ " bpm" ++ "\n"

/-- The required top-level fields of the workout schema. -/
def requiredFieldNames : List String :=
  ["name", "start", "end", "activeEnergy", "stepCadence", "distance",
   "speed", "avgHeartRate", "maxHeartRate"]

/-- The six quantity groups of the workout schema. -/
def qtyGroupNames : List String :=
  ["activeEnergy", "stepCadence", "distance", "speed", "avgHeartRate", "maxHeartRate"]

/-! ### Sample records used as concrete inputs -/

/-- Build a workout record with the given name, timestamps and optional
`isIndoor` value, with the quantity profile of the repository's sample
data (100 kcal, 30 spm, 1 mile, 4 mph, 120/140 bpm). -/
def mkWorkout (nm startS endS : String) (indoor : Option Json) : Json :=
  .obj (Json.mkObj
    ([("name", Json.str nm), ("start", Json.str startS), ("end", Json.str endS)]
      ++ (match indoor with
          | some v => [("isIndoor", v)]
          | none => [])
      ++ [("activeEnergy", Json.obj (Json.mkObj [("qty", Json.num (jn 100))])),
          ("stepCadence", Json.obj (Json.mkObj [("qty", Json.num (jn 30))])),
          ("distance", Json.obj (Json.mkObj [("qty", Json.num (jn 1))])),
          ("speed", Json.obj (Json.mkObj [("qty", Json.num (jn 4))])),
          ("avgHeartRate", Json.obj (Json.mkObj [("qty", Json.num (jn 120))])),
          ("maxHeartRate", Json.obj (Json.mkObj [("qty", Json.num (jn 140))]))]))

/-- A 15-minute hiking workout (the spec §8 scenario). -/
def wHikeA : Json := mkWorkout "Hiking" "2021-09-26T20:00:00" "2021-09-26T20:15:00" none

/-- A second workout with a distinct start string. -/
def wHikeB : Json := mkWorkout "Hiking" "2021-09-27T09:00:00" "2021-09-27T09:30:00" none

/-- A validated record whose name is the inherited object property
`"toString"`. -/
def wToString : Json := mkWorkout "toString" "2021-09-26T20:00:00" "2021-09-26T20:15:00" none

/-- A legacy walking workout explicitly flagged indoor. -/
def wWalkIndoor : Json :=
  mkWorkout "Walking" "2021-09-26T20:00:00" "2021-09-26T20:15:00" (some (.bool true))

/-- A legacy walking workout with the indoor flag absent. -/
def wWalkNoFlag : Json := mkWorkout "Walking" "2021-09-26T20:00:00" "2021-09-26T20:15:00" none

/-- A workout lasting exactly 24 hours. -/
def w24h : Json := mkWorkout "Hiking" "2021-09-26T20:00:00" "2021-09-27T20:00:00" none

/-- An otherwise-valid record whose `isIndoor` is the string `"yes"`. -/
def wIndoorStr : Json :=
  mkWorkout "Walking" "2021-09-26T20:00:00" "2021-09-26T20:15:00" (some (.str "yes"))

/-- An otherwise-valid record whose `isIndoor` is `null`. -/
def wNullIndoor : Json :=
  mkWorkout "Walking" "2021-09-26T20:00:00" "2021-09-26T20:15:00" (some .null)

/-- A workout whose start is written with a `Z` UTC designator. -/
def wZuluStart : Json := mkWorkout "Hiking" "2021-09-26T20:00:00Z" "2021-09-26T21:00:00Z" none

/-- A workout starting at the same instant as `wZuluStart` but written
with a `+01:00` offset. -/
def wOffsetStart : Json :=
  mkWorkout "Hiking" "2021-09-26T21:00:00+01:00" "2021-09-26T22:00:00+01:00" none

/-- A record like `wHikeA` but whose `activeEnergy` group lacks the
required `qty` field. -/
def wNoQty : Json :=
  .obj (Json.mkObj
    [("name", Json.str "Hiking"),
     ("start", Json.str "2021-09-26T20:00:00"),
     ("end", Json.str "2021-09-26T20:15:00"),
     ("activeEnergy", Json.obj (Json.mkObj [("amount", Json.num (jn 100))])),
     ("stepCadence", Json.obj (Json.mkObj [("qty", Json.num (jn 30))])),
     ("distance", Json.obj (Json.mkObj [("qty", Json.num (jn 1))])),
     ("speed", Json.obj (Json.mkObj [("qty", Json.num (jn 4))])),
     ("avgHeartRate", Json.obj (Json.mkObj [("qty", Json.num (jn 120))])),
     ("maxHeartRate", Json.obj (Json.mkObj [("qty", Json.num (jn 140))]))])

/-- A fault oracle that fails the existence check of the first batch
record and nothing else. -/
def failFirstCheck : Nat → Option MergeFault :=
  fun i => if i = 0 then some .check else none

/-! ### Helper lemmas -/

theorem jStrD_of_getField {j : Json} {k s : String} (h : j.getField k = some (.str s)) :
    jStrD j k = s := by
  simp [jStrD, h]

theorem getField_obj {j : Json} {k : String} {v : Json} (h : j.getField k = some v) :
    ∃ fs, j = .obj fs := by
  cases j <;> simp_all [Json.getField]

theorem nameInAllowed_of_mem {n : String} (ha : n ∈ allowedWorkoutNames) :
    nameInAllowedWorkoutNames n = true := by
  fin_cases ha <;> decide

theorem createFromWorkoutData_eq_some {j : Json} {n : String}
    (hv : isWorkoutData j = true) (hn : j.getField "name" = some (.str n))
    (ha : n ∈ allowedWorkoutNames) :
    createFromWorkoutData j = some ⟨jStrD j "start", calcName j, calcBody j⟩ := by
  have h1 : nameInAllowedWorkoutNames (jStrD j "name") = true := by
    rw [jStrD_of_getField hn]; exact nameInAllowed_of_mem ha
  simp [createFromWorkoutData, hv, h1]

/-! ### Claim theorems -/

/-- C1 (code bug evidence): a record that passes schema validation and
whose name, `"toString"`, is not one of the eight allow-list names is
nevertheless accepted by the `in`-operator membership test (because
`Object.prototype` properties are inherited) and receives the fallback
title `"DEFAULT"`, contradicting the claimed hard filter. -/
theorem createFromWorkoutData_prototype_leak :
    isWorkoutData wToString = true ∧
    wToString.getField "name" = some (.str "toString") ∧
    "toString" ∉ allowedWorkoutNames ∧
    (createFromWorkoutData wToString).map (fun e => e.name) = some "DEFAULT" := by
  decide

/-- C3: for every validated record with an allow-listed name, the
constructed event's title equals the fixed claimed mapping from
(name, indoor flag) and lies in the five-title set. -/
theorem calcName_fixed_mapping (j : Json) (n : String)
    (hv : isWorkoutData j = true) (hn : j.getField "name" = some (.str n))
    (ha : n ∈ allowedWorkoutNames) :
    ∃ ev, createFromWorkoutData j = some ev ∧
      ev.name = specTitle n (jsTruthy (j.getField "isIndoor")) ∧
      ev.name ∈ ["Cardio - treadmill", "Cardio - walk", "Cardio - run",
                 "Cardio - elliptical", "Hiking"] := by
  refine ⟨_, createFromWorkoutData_eq_some hv hn ha, ?_, ?_⟩ <;>
    have hs := jStrD_of_getField hn <;>
    fin_cases ha <;>
    simp [calcName, specTitle, hs] <;>
    cases jsTruthy (j.getField "isIndoor") <;> simp

/-- C3 witness: the mapping evaluated on a concrete indoor walking
workout. -/
theorem calcName_fixed_mapping_witness :
    ∃ ev, createFromWorkoutData wWalkIndoor = some ev ∧
      ev.name = specTitle "Walking" (jsTruthy (wWalkIndoor.getField "isIndoor")) ∧
      ev.name ∈ ["Cardio - treadmill", "Cardio - walk", "Cardio - run",
                 "Cardio - elliptical", "Hiking"] :=
  calcName_fixed_mapping wWalkIndoor "Walking" (by decide) (by decide) (by decide)

/-- C9 counterexample: an otherwise-valid record with `isIndoor: null`
passes schema validation (ajv's `nullable: true`) and produces an event,
so "every non-boolean `isIndoor` value fails validation" is false. -/
theorem isIndoor_null_accepted :
    isWorkoutData wNullIndoor = true ∧
    wNullIndoor.getField "isIndoor" = some .null ∧
    (createFromWorkoutData wNullIndoor).map (fun e => e.name) = some "Cardio - walk" ∧
    createFromWorkoutData wNullIndoor ≠ none := by
  decide

/-- C9 (amended): a record whose `isIndoor` field is present with a value
that is neither a boolean nor null fails schema validation, and
`createFromWorkoutData` returns `none` for it. -/
theorem isIndoor_nonboolean_rejected (j v : Json)
    (hf : j.getField "isIndoor" = some v)
    (hb : ∀ b, v ≠ Json.bool b) (hn : v ≠ Json.null) :
    isWorkoutData j = false ∧ createFromWorkoutData j = none := by
  have hv : isWorkoutData j = false := by
    obtain ⟨fs, rfl⟩ := getField_obj hf
    have hind : indoorFieldOk (.obj fs) = false := by
      cases v with
      | null => exact absurd rfl hn
      | bool b => exact absurd rfl (hb b)
      | num q => simp [indoorFieldOk, hf]
      | str s => simp [indoorFieldOk, hf]
      | obj fs' => simp [indoorFieldOk, hf]
    simp [isWorkoutData, hind]
  exact ⟨hv, by simp [createFromWorkoutData, hv]⟩

/-- C9 witness: the amended rejection evaluated on a concrete record with
a string-valued `isIndoor`. -/
theorem isIndoor_nonboolean_rejected_witness :
    isWorkoutData wIndoorStr = false ∧ createFromWorkoutData wIndoorStr = none :=
  isIndoor_nonboolean_rejected wIndoorStr (.str "yes") (by decide) (by decide) (by decide)

/-- C10: for a validated legacy-named record with no `isIndoor` field the
flag is falsy, so "Walking" titles as "Cardio - walk" and "Running" as
"Cardio - run". -/
theorem legacy_absent_indoor_is_outdoor (j : Json)
    (hv : isWorkoutData j = true) (hi : j.getField "isIndoor" = none) :
    (j.getField "name" = some (.str "Walking") →
      (createFromWorkoutData j).map (fun e => e.name) = some "Cardio - walk") ∧
    (j.getField "name" = some (.str "Running") →
      (createFromWorkoutData j).map (fun e => e.name) = some "Cardio - run") := by
  constructor <;> intro hn <;>
    rw [createFromWorkoutData_eq_some hv hn (by decide)] <;>
    simp [calcName, jStrD_of_getField hn, hi, jsTruthy]

/-- C10 witness: evaluated on a concrete walking workout without the
flag. -/
theorem legacy_absent_indoor_is_outdoor_witness :
    (createFromWorkoutData wWalkNoFlag).map (fun e => e.name) = some "Cardio - walk" :=
  (legacy_absent_indoor_is_outdoor wWalkNoFlag (by decide) (by decide)).1 (by decide)

theorem amendedDurationString_eq (ms : JsNum) :
    amendedDurationString ms = getDurationString ms := by
  unfold amendedDurationString getDurationString
  rcases lt_or_le (durParts ms).hours 1 with h | h
  · rw [if_pos h, if_neg (by omega)]
  · rw [if_neg (by omega), if_pos h]

theorem specPaceMs_eq (speed : JsNum) :
    specPaceMs speed
      = jsMul (jsMul (jsMul (jsDiv (jn 1) speed) (jn 60)) (jn 60)) (jn 1000) := by
  simp only [specPaceMs, jsMul, jsDiv, jn, JsNum.mk.injEq]
  constructor <;> ring

theorem amendedBody_eq (j : Json) : amendedBody j = calcBody j := by
  unfold amendedBody calcBody
  simp only [amendedDurationString_eq, specPaceMs_eq]

/-- C4 counterexample: on a validated, allow-listed workout lasting
exactly 24 hours the produced body renders the duration as `"00:00"`
(the dayjs hours component is zero after a whole day is truncated away),
not as an `HH:mm:ss` rendering as the claim's under-one-hour rule
demands, so the body differs from the claimed one. -/
theorem calcBody_24h_breaks_claim :
    isWorkoutData w24h = true ∧
    w24h.getField "name" = some (.str "Hiking") ∧
    parseMsD (jStrD w24h "end") - parseMsD (jStrD w24h "start") = 86400000 ∧
    (createFromWorkoutData w24h).map (fun e => e.body) =
      some "00:00\n100 calories\n1.00 miles\n\nPace: 15:00\nHR: 120 - 140 bpm\n" ∧
    claimBody w24h =
      "00:00:00\n100 calories\n1.00 miles\n\nPace: 15:00\nHR: 120 - 140 bpm\n" ∧
    (createFromWorkoutData w24h).map (fun e => e.body) ≠ some (claimBody w24h) := by
  decide

/-- C4 (amended): for every validated, allow-listed record the event body
is exactly the claimed composition — duration, calories, the
Elliptical/others branch, pace as `(1 / speed) * 60` minutes per mile,
heart-rate line — with durations and pace rendered `mm:ss` when the hours
component of the duration decomposition is under one (for durations under
24 hours: exactly when under one hour) and `HH:mm:ss` otherwise. -/
theorem calcBody_claimed_structure (j : Json) (n : String)
    (hv : isWorkoutData j = true) (hn : j.getField "name" = some (.str n))
    (ha : n ∈ allowedWorkoutNames) :
    ∃ ev, createFromWorkoutData j = some ev ∧ ev.body = amendedBody j :=
  ⟨_, createFromWorkoutData_eq_some hv hn ha, (amendedBody_eq j).symm⟩

/-- C4 witness: the amended body equality evaluated on the concrete
15-minute hiking workout. -/
theorem calcBody_claimed_structure_witness :
    ∃ ev, createFromWorkoutData wHikeA = some ev ∧ ev.body = amendedBody wHikeA :=
  calcBody_claimed_structure wHikeA "Hiking" (by decide) (by decide) (by decide)

/-- C8 counterexample: a structured value with a string name, parseable
start and end, and all six quantity groups numeric — the claimed premise
for validation success — is still rejected when its optional `isIndoor`
field holds a string, so the claim's "returns true" half is false as
stated. -/
theorem isWorkoutData_claim_premise_insufficient :
    wIndoorStr.getField "name" = some (.str "Walking") ∧
    wIndoorStr.getField "start" = some (.str "2021-09-26T20:00:00") ∧
    dayjsIsValid "2021-09-26T20:00:00" = true ∧
    wIndoorStr.getField "end" = some (.str "2021-09-26T20:15:00") ∧
    dayjsIsValid "2021-09-26T20:15:00" = true ∧
    (∀ g ∈ qtyGroupNames, qtyGroupOk ((wIndoorStr.getField g).getD .null) = true) ∧
    isWorkoutData wIndoorStr = false := by
  decide

/-- C8 (amended): the validator returns true for every structured value
with a string name, timestamp-parseable start and end strings, six
quantity groups each holding a numeric `qty`, and an `isIndoor` field
that is absent, boolean or null — unknown extra fields tolerated — and
returns false whenever a required field is missing, a present quantity
group is missing its `qty`, or the start or end string does not parse as
a timestamp. -/
theorem isWorkoutData_characterisation :
    (∀ j : Json, ∀ nm st' en : String,
      j.getField "name" = some (.str nm) →
      j.getField "start" = some (.str st') → dayjsIsValid st' = true →
      j.getField "end" = some (.str en) → dayjsIsValid en = true →
      (j.getField "isIndoor" = none ∨ j.getField "isIndoor" = some .null ∨
        ∃ b, j.getField "isIndoor" = some (.bool b)) →
      (∀ g ∈ qtyGroupNames, ∃ o q, j.getField g = some o ∧
        o.getField "qty" = some (.num q)) →
      isWorkoutData j = true) ∧
    (∀ j : Json,
      ((∃ k ∈ requiredFieldNames, j.getField k = none) ∨
       (∃ g ∈ qtyGroupNames, ∃ o, j.getField g = some o ∧ o.getField "qty" = none) ∨
       (∃ s, (j.getField "start" = some (.str s) ∨ j.getField "end" = some (.str s)) ∧
         dayjsIsValid s = false)) →
      isWorkoutData j = false) := by
  constructor
  · intro j nm st' en hnm hst hstv hen henv hind hq
    obtain ⟨fs, rfl⟩ := getField_obj hnm
    have hindoor : indoorFieldOk (.obj fs) = true := by
      rcases hind with h | h | ⟨b, h⟩ <;> simp [indoorFieldOk, h]
    have hgrp : ∀ g ∈ qtyGroupNames,
        qtyGroupOk (((Json.obj fs).getField g).getD .null) = true := by
      intro g hg
      obtain ⟨o, q, ho, hoq⟩ := hq g hg
      obtain ⟨ofs, rfl⟩ := getField_obj hoq
      simp [ho, qtyGroupOk, hoq]
    have h1 : tsFieldOk (.obj fs) "start" = true := by simp [tsFieldOk, hst, hstv]
    have h2 : tsFieldOk (.obj fs) "end" = true := by simp [tsFieldOk, hen, henv]
    have g1 := hgrp "activeEnergy" (by decide)
    have g2 := hgrp "stepCadence" (by decide)
    have g3 := hgrp "distance" (by decide)
    have g4 := hgrp "speed" (by decide)
    have g5 := hgrp "avgHeartRate" (by decide)
    have g6 := hgrp "maxHeartRate" (by decide)
    simp [isWorkoutData, hnm, h1, h2, hindoor, g1, g2, g3, g4, g5, g6]
  · intro j hbad
    cases j with
    | null => rfl
    | bool b => rfl
    | num q => rfl
    | str s => rfl
    | obj fs =>
      rcases hbad with ⟨k, hk, hnone⟩ | ⟨g, hg, o, ho, hoq⟩ | ⟨s, hs, hsv⟩
      · fin_cases hk <;> simp [isWorkoutData, hnone, tsFieldOk, qtyGroupOk]
      · have hko : qtyGroupOk o = false := by
          cases o <;> simp [qtyGroupOk, hoq]
        fin_cases hg <;> simp [isWorkoutData, ho, hko]
      · rcases hs with h | h <;> simp [isWorkoutData, tsFieldOk, h, hsv]

/-- C8 witness: the characterisation applied to a concrete accepted
record and a concrete record missing its `activeEnergy.qty`. -/
theorem isWorkoutData_characterisation_witness :
    isWorkoutData wHikeA = true ∧ isWorkoutData wNoQty = false :=
  ⟨isWorkoutData_characterisation.1 wHikeA "Hiking"
      "2021-09-26T20:00:00" "2021-09-26T20:15:00"
      (by decide) (by decide) (by decide) (by decide) (by decide)
      (Or.inl (by decide))
      (fun g hg => by fin_cases hg <;> exact ⟨_, _, rfl, rfl⟩),
   isWorkoutData_characterisation.2 wNoQty
      (Or.inr (Or.inl ⟨"activeEnergy", by decide,
        .obj (Json.mkObj [("amount", .num (jn 100))]), by decide, by decide⟩))⟩

/-! ### Store and merge lemmas -/

theorem storeSeen_nil (w : Json) : storeSeen [] w = false := by
  cases h : startKey w <;> simp [storeSeen, h]

theorem storeSeen_append (st1 st2 : Store) (w : Json) :
    storeSeen (st1 ++ st2) w = (storeSeen st1 w || storeSeen st2 w) := by
  cases h : startKey w <;> simp [storeSeen, h, List.any_append]

theorem storeSeen_of_mem {st : Store} {w : Json} {k : String}
    (hw : w ∈ st) (hk : startKey w = some k) : storeSeen st w = true := by
  simp only [storeSeen, hk, List.any_eq_true]
  exact ⟨w, hw, by simp [hk]⟩

theorem noFault_shift : (fun i => noFault (i + 1)) = noFault := rfl

theorem mergeStep_snd (flt : Option MergeFault) (st : Store) (w : Json) :
    (mergeStep flt st w).2 = (flt.isNone && !storeSeen st w) := by
  rcases flt with - | f
  · simp only [mergeStep, Option.isNone_none, Bool.true_and]
    cases storeSeen st w <;> simp
  · cases f <;> simp [mergeStep] <;> cases storeSeen st w <;> simp

theorem mergeData_allSeen (st : Store) (batch : List Json)
    (h : ∀ w ∈ batch, storeSeen st w = true) :
    mergeData noFault st batch = (st, List.replicate batch.length false) := by
  induction batch with
  | nil => rfl
  | cons w ws ih =>
    have hw := h w (by simp)
    have hstep : mergeStep (noFault 0) st w = (st, false) := by
      simp [mergeStep, noFault, hw]
    simp only [mergeData, hstep, noFault_shift, ih (fun x hx => h x (by simp [hx])),
      List.length_cons, List.replicate_succ]

theorem mergeData_fresh (st : Store) (batch : List Json)
    (hsome : ∀ w ∈ batch, (startKey w).isSome = true)
    (hdist : batch.Pairwise (fun a b => startKey a ≠ startKey b)) :
    (mergeData noFault st batch).1 = st ++ batch.filter (fun w => !storeSeen st w) := by
  induction batch generalizing st with
  | nil => simp [mergeData]
  | cons w ws ih =>
    obtain ⟨hdw, hdws⟩ := List.pairwise_cons.mp hdist
    have hsw := hsome w (List.mem_cons_self w ws)
    have ihws := fun s =>
      ih s (fun x hx => hsome x (List.mem_cons_of_mem w hx)) hdws
    cases hseen : storeSeen st w with
    | true =>
      have hstep : mergeStep (noFault 0) st w = (st, false) := by
        simp [mergeStep, noFault, hseen]
      simp only [mergeData, hstep, noFault_shift, ihws st, List.filter_cons, hseen,
        Bool.not_true, Bool.false_eq_true, if_false]
    | false =>
      have hstep : mergeStep (noFault 0) st w = (st ++ [w], true) := by
        simp [mergeStep, noFault, hseen]
      have hfilter : ws.filter (fun x => !storeSeen (st ++ [w]) x)
          = ws.filter (fun x => !storeSeen st x) := by
        apply List.filter_congr
        intro x hx
        obtain ⟨kx, hkx⟩ :=
          Option.isSome_iff_exists.mp (hsome x (List.mem_cons_of_mem w hx))
        obtain ⟨kw, hkw⟩ := Option.isSome_iff_exists.mp hsw
        have hne' : kw ≠ kx := by
          intro hc
          exact hdw x hx (by rw [hkw, hkx, hc])
        have hsingle : storeSeen [w] x = false := by
          simp only [storeSeen, hkx, List.any_cons, List.any_nil, Bool.or_false, hkw]
          rw [beq_eq_false_iff_ne]
          exact fun hc => hne' (Option.some.inj hc)
        rw [storeSeen_append, hsingle, Bool.or_false]
      simp only [mergeData, hstep, noFault_shift, ihws (st ++ [w]), hfilter,
        List.filter_cons, hseen, Bool.not_false, if_true, List.append_assoc,
        List.singleton_append]

/-! ### Claim theorems about the store -/

/-- C2: merging a batch of records with pairwise-distinct start strings is
idempotent: the first call appends exactly one row per start key that was
new relative to the pre-call store, and a second identical call leaves
the store unchanged and fires the new-record callback zero times. -/
theorem mergeData_idempotent (st : Store) (batch : List Json)
    (hsome : ∀ w ∈ batch, (startKey w).isSome = true)
    (hdist : batch.Pairwise (fun a b => startKey a ≠ startKey b)) :
    (mergeData noFault st batch).1 = st ++ batch.filter (fun w => !storeSeen st w) ∧
    mergeData noFault (mergeData noFault st batch).1 batch
      = ((mergeData noFault st batch).1, List.replicate batch.length false) := by
  have h2 := mergeData_fresh st batch hsome hdist
  refine ⟨h2, ?_⟩
  apply mergeData_allSeen
  intro w hw
  rw [h2, storeSeen_append]
  cases hseen : storeSeen st w with
  | true => rfl
  | false =>
    have hmem : w ∈ batch.filter (fun x => !storeSeen st x) :=
      List.mem_filter.mpr ⟨hw, by simp [hseen]⟩
    obtain ⟨k, hk⟩ := Option.isSome_iff_exists.mp (hsome w hw)
    rw [storeSeen_of_mem hmem hk, Bool.or_true]

/-- C2 witness: idempotence evaluated on two concrete distinct-start
workouts over the empty store. -/
theorem mergeData_idempotent_witness :
    (mergeData noFault [] [wHikeA, wHikeB]).1
      = [] ++ [wHikeA, wHikeB].filter (fun w => !storeSeen [] w) ∧
    mergeData noFault (mergeData noFault [] [wHikeA, wHikeB]).1 [wHikeA, wHikeB]
      = ((mergeData noFault [] [wHikeA, wHikeB]).1,
         List.replicate [wHikeA, wHikeB].length false) :=
  mergeData_idempotent [] [wHikeA, wHikeB] (by decide) (by decide)

theorem mergeData_length (flts : Nat → Option MergeFault) (st : Store)
    (batch : List Json) :
    (mergeData flts st batch).2.length = batch.length := by
  induction batch generalizing flts st with
  | nil => rfl
  | cons w ws ih => simp [mergeData, ih]

theorem mergeData_flag (flts : Nat → Option MergeFault) (st : Store)
    (batch : List Json) (i : Nat) (w : Json) (hw : batch[i]? = some w) :
    ((mergeData flts st batch).2)[i]?
      = some ((flts i).isNone
          && !storeSeen ((mergeData flts st (batch.take i)).1) w) := by
  induction batch generalizing flts st i with
  | nil => simp at hw
  | cons x ws ih =>
    cases i with
    | zero =>
      simp only [List.getElem?_cons_zero, Option.some.injEq] at hw
      subst hw
      simp only [mergeData, List.getElem?_cons_zero, List.take_zero, mergeStep_snd]
    | succ i =>
      simp only [List.getElem?_cons_succ] at hw
      simp only [mergeData, List.getElem?_cons_succ, List.take_succ_cons]
      exact ih (fun n => flts (n + 1)) (mergeStep (flts 0) st x).1 i hw

/-- C6: within one `mergeData` call the callback flag list has one entry
per batch record, and the callback fires for record `i` exactly when no
store fault hits that record and its start key is unseen in the store
state reached after the first `i` records — in particular a fault on one
record leaves every other record's processing and callback unchanged, and
a record whose check or insert fails, or whose key is already present,
gets zero callback invocations. -/
theorem mergeData_callback_exactness (flts : Nat → Option MergeFault) (st : Store)
    (batch : List Json) :
    (mergeData flts st batch).2.length = batch.length ∧
    ∀ i w, batch[i]? = some w →
      ((mergeData flts st batch).2)[i]?
        = some ((flts i).isNone
            && !storeSeen ((mergeData flts st (batch.take i)).1) w) :=
  ⟨mergeData_length flts st batch, fun i w hw => mergeData_flag flts st batch i w hw⟩

/-- C6 witness: with a fault injected on the first record's existence
check, the second record is still processed and gets its callback. -/
theorem mergeData_callback_exactness_witness :
    ((mergeData failFirstCheck [] [wHikeA, wHikeB]).2)[1]?
      = some ((failFirstCheck 1).isNone
          && !storeSeen ((mergeData failFirstCheck [] ([wHikeA, wHikeB].take 1)).1) wHikeB) ∧
    (mergeData failFirstCheck [] [wHikeA, wHikeB]).2 = [false, true] :=
  ⟨(mergeData_callback_exactness failFirstCheck [] [wHikeA, wHikeB]).2 1 wHikeB (by decide),
   by decide⟩

/-- C7: the dedup identity is exact string equality of the start field:
the existence check answers true iff some stored row's extracted start
string equals the record's start string character for character; two
records whose starts denote the same instant in different spellings are
both inserted, while two records with identical start strings collapse to
one row. -/
theorem dedup_exact_string_equality (st : Store) (w w1 w2 : Json) (k k1 k2 : String)
    (hk : startKey w = some k) (h1 : startKey w1 = some k1)
    (h2 : startKey w2 = some k2)
    (hinstant : parseTimestampMs k1 = parseTimestampMs k2) :
    (storeSeen st w = true ↔ ∃ r ∈ st, startKey r = some k) ∧
    (k1 ≠ k2 → (mergeData noFault [] [w1, w2]).1 = [w1, w2]) ∧
    (k1 = k2 → (mergeData noFault [] [w1, w2]).1 = [w1]) := by
  refine ⟨?_, ?_, ?_⟩
  · simp [storeSeen, hk, List.any_eq_true]
  · intro hne
    have hs2 : storeSeen [w1] w2 = false := by
      simp only [storeSeen, h2, List.any_cons, List.any_nil, Bool.or_false, h1]
      rw [beq_eq_false_iff_ne]
      exact fun hc => hne (Option.some.inj hc)
    simp [mergeData, mergeStep, noFault, storeSeen_nil, hs2]
  · intro heq
    have hs2 : storeSeen [w1] w2 = true := by
      simp [storeSeen, h2, h1, heq]
    simp [mergeData, mergeStep, noFault, storeSeen_nil, hs2]

/-- C7 witness: `2021-09-26T20:00:00Z` and `2021-09-26T21:00:00+01:00`
denote the same instant but differ textually, so both records are
inserted. -/
theorem dedup_exact_string_equality_witness :
    (storeSeen [wZuluStart] wZuluStart = true ↔
      ∃ r ∈ [wZuluStart], startKey r = some "2021-09-26T20:00:00Z") ∧
    ("2021-09-26T20:00:00Z" ≠ "2021-09-26T21:00:00+01:00" →
      (mergeData noFault [] [wZuluStart, wOffsetStart]).1 = [wZuluStart, wOffsetStart]) ∧
    ("2021-09-26T20:00:00Z" = "2021-09-26T21:00:00+01:00" →
      (mergeData noFault [] [wZuluStart, wOffsetStart]).1 = [wZuluStart]) :=
  dedup_exact_string_equality [wZuluStart] wZuluStart wZuluStart wOffsetStart
    "2021-09-26T20:00:00Z" "2021-09-26T20:00:00Z" "2021-09-26T21:00:00+01:00"
    (by decide) (by decide) (by decide) (by decide)

theorem length_filterMap_events {batch : List Json}
    (h : ∀ w ∈ batch, (createFromWorkoutData w).isSome = true) :
    (batch.filterMap createFromWorkoutData).length = batch.length := by
  induction batch with
  | nil => rfl
  | cons w ws ih =>
    obtain ⟨e, he⟩ := Option.isSome_iff_exists.mp (h w (by simp))
    simp [List.filterMap_cons, he, ih (fun x hx => h x (by simp [hx]))]

theorem startKey_isSome_of_valid {j : Json} (h : isWorkoutData j = true) :
    (startKey j).isSome = true := by
  obtain ⟨fs, rfl⟩ : ∃ fs, j = .obj fs := by
    cases j <;> first | exact ⟨_, rfl⟩ | simp [isWorkoutData] at h
  simp only [isWorkoutData, Bool.and_eq_true] at h
  obtain ⟨⟨⟨⟨⟨⟨⟨⟨⟨-, hts⟩, -⟩, -⟩, -⟩, -⟩, -⟩, -⟩, -⟩, -⟩ := h
  cases hgf : (Json.obj fs).getField "start" with
  | none => simp [tsFieldOk, hgf] at hts
  | some v =>
    cases v <;> simp [tsFieldOk, hgf] at hts <;> simp [startKey, hgf]

/-- C5: merging N validated, allow-listed, pairwise-distinct-start records
into an empty store and loading the calendar events back yields exactly N
events, each equal to the event constructed directly from the
corresponding original record. -/
theorem merge_load_roundtrip (batch : List Json)
    (hv : ∀ w ∈ batch, isWorkoutData w = true)
    (ha : ∀ w ∈ batch, ∃ n, w.getField "name" = some (.str n) ∧ n ∈ allowedWorkoutNames)
    (hdist : batch.Pairwise (fun a b => startKey a ≠ startKey b)) :
    getCalendarWorkoutEvents (mergeData noFault [] batch).1
      = batch.filterMap createFromWorkoutData ∧
    (getCalendarWorkoutEvents (mergeData noFault [] batch).1).length
      = batch.length := by
  have hsome : ∀ w ∈ batch, (startKey w).isSome = true :=
    fun w hw => startKey_isSome_of_valid (hv w hw)
  have hst : (mergeData noFault [] batch).1 = batch := by
    rw [mergeData_fresh [] batch hsome hdist]
    simp [storeSeen_nil]
  rw [hst]
  refine ⟨rfl, ?_⟩
  apply length_filterMap_events
  intro w hw
  obtain ⟨n, hn, hna⟩ := ha w hw
  rw [createFromWorkoutData_eq_some (hv w hw) hn hna]
  rfl

/-- C5 witness: the round trip evaluated on two concrete distinct-start
hiking workouts. -/
theorem merge_load_roundtrip_witness :
    getCalendarWorkoutEvents (mergeData noFault [] [wHikeA, wHikeB]).1
      = [wHikeA, wHikeB].filterMap createFromWorkoutData ∧
    (getCalendarWorkoutEvents (mergeData noFault [] [wHikeA, wHikeB]).1).length
      = [wHikeA, wHikeB].length :=
  merge_load_roundtrip [wHikeA, wHikeB] (by decide)
    (fun w hw => by fin_cases hw <;> exact ⟨_, rfl, by decide⟩)
    (by decide)

end WorkoutsToIcal
